import Mathlib

/-!
Verification development for the PreDict maintenance-analytics repository.

The first part embeds the reliability-metric pipeline of app_backup.py
(lines 71-112): date parsing with coercion of bad dates to null, the
date-range filter, the left merge with the equipment master table, the
repair-time column and its positivity filter, the stable sort by
(equipment, malfunction start), the per-equipment previous-end column
(groupby + shift), per-equipment MTBF and the global MTTR scalar.

Timestamps are modelled as seconds (Int); a missing timestamp (pandas NaT)
is Option.none, and every arithmetic column that pandas would fill with NaN
is an Option as well.  Durations in hours are rationals.

The second part embeds the three utility functions of src/utils.py that the
claims mention: estimate_failure_probability, estimate_eta and
detect_anomalies.
-/

namespace PreDict

/-- Column-name constants of the uploaded breakdown sheet (already
lower-cased and stripped by the app). -/
def colEquipment : String := "equipment"

def colMalfunctStart : String := "malfunct. start"

def colStartMalfnT : String := "start malfn (t)"

def colMalfunctDotEnd : String := "malfunct.end"

def colMalfunctionEnd : String := "malfunction end"

/-- The four columns read inside the try block of app_backup.py lines 77-80;
accessing a missing one raises the KeyError caught at line 81. -/
def requiredDateColumns : List String :=
  [colMalfunctStart, colStartMalfnT, colMalfunctDotEnd, colMalfunctionEnd]

def missingColumnMsg : String := "Missing expected column"

/-- One parsed breakdown event: equipment id plus the two datetime columns
built at lines 77-80.  none models pandas NaT. -/
structure EventRow where
  equipment : String
  malfunctionStart : Option Int
  malfunctionEnd : Option Int
deriving DecidableEq

/-- One row of the equipment master sheet.  Only the join key is ever used
by the pipeline; the remaining master columns are kept opaque. -/
structure MasterRow where
  equipment : String
  attrs : List (String × String)
deriving DecidableEq

/-- An event row after the left merge with the master table (line 91):
the master part is none when the equipment id has no master match. -/
structure MergedRow where
  event : EventRow
  master : Option MasterRow
deriving DecidableEq

/-- The uploaded spreadsheet as seen after line 73: a set of column names
and, for each row, cell access by column name. -/
structure RawFrame where
  columns : List String
  rows : List (String → String)

/-- Lines 76-83: build the two datetime columns by concatenating the date
and time cells and parsing with pd.to_datetime(errors = coerce).  The
parse function pd is abstract (library code); it returns none where pandas
would coerce an unparseable string to NaT.  A missing required column is
the KeyError branch: the app shows the error and stops. -/
def parseDates (pd : String → Option Int) (f : RawFrame) :
    Except String (List EventRow) :=
  if requiredDateColumns.all (fun c => f.columns.contains c) then
    Except.ok (f.rows.map (fun r =>
      { equipment := r colEquipment
        malfunctionStart := pd (r colMalfunctStart ++ " " ++ r colStartMalfnT)
        malfunctionEnd :=
          pd (r colMalfunctDotEnd ++ " " ++ r colMalfunctionEnd) }))
  else Except.error missingColumnMsg

/-- Calendar date of a timestamp, abstracted as the floor day number. -/
def dateOf (ts : Int) : Int := Int.fdiv ts 86400

/-- Lower-bound comparison of line 86: false on NaT. -/
def dateGeB (x : Option Int) (d : Int) : Bool :=
  match x with
  | some ts => decide (d ≤ dateOf ts)
  | none => false

/-- Upper-bound comparison of line 87: false on NaT. -/
def dateLeB (x : Option Int) (d : Int) : Bool :=
  match x with
  | some ts => decide (dateOf ts ≤ d)
  | none => false

/-- Lines 86-87: keep a row iff its malfunction start date lies between the
two sidebar dates; rows with a null start satisfy neither comparison. -/
def inDateRange (startD endD : Int) (e : EventRow) : Bool :=
  dateGeB e.malfunctionStart startD && dateLeB e.malfunctionStart endD

def dateFilter (startD endD : Int) (es : List EventRow) : List EventRow :=
  es.filter (inDateRange startD endD)

/-- Line 91: left merge with the master table on the equipment column. -/
def mergeMaster (master : List MasterRow) : List EventRow → List MergedRow
  | [] => []
  | e :: rest =>
    (match master.filter (fun m => m.equipment = e.equipment) with
     | [] => [⟨e, none⟩]
     | ms => ms.map (fun m => ⟨e, some m⟩)) ++ mergeMaster master rest

/-- Lines 94-95: the repair time (hrs) column, total seconds of
end minus start divided by 3600; NaN (none) when either side is NaT. -/
def repairHours (e : EventRow) : Option ℚ :=
  match e.malfunctionStart, e.malfunctionEnd with
  | some st, some en => some (((en - st : ℤ) : ℚ) / 3600)
  | _, _ => none

/-- Line 96: the boolean mask repair time (hrs) greater than 0; a NaN
repair time compares false, so such rows are dropped as well. -/
def keepPositiveRepair (r : MergedRow) : Bool :=
  match repairHours r.event with
  | some q => decide (0 < q)
  | none => false

/-- Ordering of the malfunction start column used by sort_values; NaT is
placed last (pandas default na_position). -/
def timeLe : Option Int → Option Int → Prop
  | some a, some b => a ≤ b
  | some _, none => True
  | none, some _ => False
  | none, none => True

instance : ∀ x y, Decidable (timeLe x y)
  | some a, some b => inferInstanceAs (Decidable (a ≤ b))
  | some _, none => inferInstanceAs (Decidable True)
  | none, some _ => inferInstanceAs (Decidable False)
  | none, none => inferInstanceAs (Decidable True)

/-- Line 98: the lexicographic key of sort_values(by = [equipment,
malfunction start]). -/
def rowLe (a b : MergedRow) : Prop :=
  a.event.equipment < b.event.equipment ∨
    (a.event.equipment = b.event.equipment ∧
      timeLe a.event.malfunctionStart b.event.malfunctionStart)

instance : DecidableRel rowLe := fun a b => by
  unfold rowLe; infer_instance

/-- Line 99: groupby(equipment) followed by shift(1) on malfunction end.
The accumulator maps each equipment id to the end timestamp of the last
row of that equipment seen so far; each row receives the accumulator value
before being folded in. -/
def addPrevEnd : List MergedRow → (String → Option Int) →
    List (MergedRow × Option Int)
  | [], _ => []
  | r :: rest, lastEnd =>
    (r, lastEnd r.event.equipment) ::
      addPrevEnd rest
        (fun q => if q = r.event.equipment then r.event.malfunctionEnd
                  else lastEnd q)

/-- Lines 100-101: uptime since last failure (hrs); NaN when the row has no
previous event of its equipment. -/
def uptimeHours (e : EventRow) (prevEnd : Option Int) : Option ℚ :=
  match e.malfunctionStart, prevEnd with
  | some st, some p => some (((st - p : ℤ) : ℚ) / 3600)
  | _, _ => none

/-- The uptime gaps of one equipment: the non-null values of the uptime
column restricted to that equipment, exactly what groupby(...).mean()
averages (pandas mean skips NaN). -/
def gapsFor (l : List (MergedRow × Option Int)) (q : String) : List ℚ :=
  (l.filter (fun rp => rp.1.event.equipment = q)).filterMap
    (fun rp => uptimeHours rp.1.event rp.2)

/-- Mean of a list of rationals; none on the empty list (an all-NaN group
has mean NaN in pandas). -/
def meanOpt (g : List ℚ) : Option ℚ :=
  if g.length = 0 then none else some (g.sum / g.length)

/-- Lines 104-107: the per-equipment MTBF value merged back onto each row. -/
def mtbfFor (l : List (MergedRow × Option Int)) (q : String) : Option ℚ :=
  meanOpt (gapsFor l q)

/-- One row of the final metric table: the event and master columns plus
the four derived columns. -/
structure OutRow where
  event : EventRow
  master : Option MasterRow
  repair : Option ℚ
  prevEnd : Option Int
  uptime : Option ℚ
  mtbf : Option ℚ
deriving DecidableEq

/-- Builds one row of the final table from a row of the shifted list: the
event and master columns plus the derived columns of lines 94-107. -/
def mkOut (withPrev : List (MergedRow × Option Int))
    (rp : MergedRow × Option Int) : OutRow :=
  { event := rp.1.event
    master := rp.1.master
    repair := repairHours rp.1.event
    prevEnd := rp.2
    uptime := uptimeHours rp.1.event rp.2
    mtbf := mtbfFor withPrev rp.1.event.equipment }

/-- Lines 98-112 applied to the rows that survived the positivity filter:
sort, previous-end column, uptime column, MTBF merge, and the MTTR scalar
(total repair time over the count of non-null repair times, 0 when the
count is 0). -/
def metricAux (retained : List MergedRow) : List OutRow × ℚ :=
  let sorted := List.insertionSort rowLe retained
  let withPrev := addPrevEnd sorted (fun _ => none)
  let table := withPrev.map (mkOut withPrev)
  let reps := table.filterMap OutRow.repair
  (table, if reps.length = 0 then 0 else reps.sum / reps.length)

/-- Lines 94-112: drop the rows whose repair time is not strictly positive
(line 96), then compute every metric from the remaining rows. -/
def metricCore (merged : List MergedRow) : List OutRow × ℚ :=
  metricAux (merged.filter keepPositiveRepair)

/-- The full upload pipeline of app_backup.py lines 71-112: parse the date
columns (fatal error when one is missing), filter to the selected date
range, merge with the master table, and derive the metric table and the
MTTR scalar.  An Except.error result models st.error followed by st.stop:
nothing further is rendered. -/
def processUpload (pd : String → Option Int) (f : RawFrame)
    (startD endD : Int) (master : List MasterRow) :
    Except String (List OutRow × ℚ) :=
  match parseDates pd f with
  | Except.error e => Except.error e
  | Except.ok events =>
    Except.ok (metricCore (mergeMaster master (dateFilter startD endD events)))

/-! ### src/utils.py: estimate_failure_probability (lines 65-74) -/

/-- One sensor reading used by estimate_failure_probability; a null
vibration cell is none. -/
structure VibRow where
  timestamp : Int
  vibration : Option ℚ
deriving DecidableEq

/-- A machine dataframe as estimate_failure_probability sees it: whether
the vibration and timestamp columns exist, and the rows. -/
structure VibFrame where
  hasVibration : Bool
  hasTimestamp : Bool
  rows : List VibRow

/-- pandas rolling(window = 10, min_periods = 1).mean() at index i: the
mean of the non-null values among the last (up to) 10 entries ending at i,
or NaN (none) when all of them are null. -/
def rollingMeanAt (xs : List (Option ℚ)) (i : ℕ) : Option ℚ :=
  let w := ((xs.take (i + 1)).drop (i + 1 - 10)).filterMap id
  if w.length = 0 then none else some (w.sum / w.length)

/-- clip(0, 1) of line 73 on a non-null value. -/
def clip01 (q : ℚ) : ℚ := max 0 (min q 1)

/-- The failure_probability column on the happy path: rolling mean of the
vibration column divided by 10, clipped to the unit interval; null cells
stay null (pandas clip keeps NaN). -/
def fpColumn (xs : List (Option ℚ)) : List (Option ℚ) :=
  (List.range xs.length).map
    (fun i => (rollingMeanAt xs i).map (fun m => clip01 (m / 10)))

def keyErrorTimestampMsg : String := "KeyError: timestamp"

/-- utils.py lines 65-74.  When vibration or timestamp is missing the code
sets the whole column to 0.0 and then selects the timestamp and
failure_probability columns; that selection raises a KeyError when the
timestamp column itself is the missing one, so only the
vibration-missing-but-timestamp-present case actually returns zeros. -/
def estimate_failure_probability (f : VibFrame) :
    Except String (List (Int × Option ℚ)) :=
  if f.hasVibration = false || f.hasTimestamp = false then
    if f.hasTimestamp then
      Except.ok (f.rows.map (fun r => (r.timestamp, some (0 : ℚ))))
    else Except.error keyErrorTimestampMsg
  else
    Except.ok ((f.rows.map VibRow.timestamp).zip
      (fpColumn (f.rows.map VibRow.vibration)))

/-! ### src/utils.py: estimate_eta (lines 79-96) -/

/-- One row used by estimate_eta: the failure flag cell and the timestamp
(seconds). -/
structure EtaRow where
  failure : Int
  timestamp : Int
deriving DecidableEq

/-- A machine dataframe as estimate_eta sees it. -/
structure EtaFrame where
  hasFailure : Bool
  hasTimestamp : Bool
  rows : List EtaRow

/-- Line 84: the (ascending) list of row indices whose failure cell is 1. -/
def failureIndices (rows : List EtaRow) : List ℕ :=
  (List.range rows.length).filter
    (fun j => (rows[j]?).map EtaRow.failure = some 1)

/-- The loop body of lines 88-94 for row index i: the first failure index
strictly after i gives the eta in hours and the predicted failure time
(timestamp plus eta hours); otherwise both columns keep None. -/
def etaRowAt (failures : List ℕ) (i : ℕ) (r : EtaRow) :
    EtaRow × Option ℕ × Option Int :=
  match (failures.filter (fun j => decide (i < j))).head? with
  | some j => (r, some (j - i), some (r.timestamp + 3600 * ((j - i : ℕ) : Int)))
  | none => (r, none, none)

/-- The loop of lines 88-94, with i the index of the first element. -/
def etaCore (failures : List ℕ) (i : ℕ) :
    List EtaRow → List (EtaRow × Option ℕ × Option Int)
  | [] => []
  | r :: rest => etaRowAt failures i r :: etaCore failures (i + 1) rest

/-- utils.py lines 79-96.  When the failure or timestamp column is missing
the dataframe is returned unchanged (modelled as rows with both derived
columns absent, i.e. none). -/
def estimate_eta (f : EtaFrame) : List (EtaRow × Option ℕ × Option Int) :=
  if f.hasFailure && f.hasTimestamp then
    etaCore (failureIndices f.rows) 0 f.rows
  else f.rows.map (fun r => (r, none, none))

/-! ### src/utils.py: detect_anomalies (lines 101-114) -/

def colTemperature : String := "temperature"

def colVibration : String := "vibration"

def colPressureIn : String := "pressure_in"

def colPressureOut : String := "pressure_out"

def colPowerKw : String := "power_kw"

def colRuntimeHours : String := "runtime_hours"

/-- The six sensor columns of utils.py lines 103-104. -/
def sensor_cols : List String :=
  [colTemperature, colVibration, colPressureIn,
   colPressureOut, colPowerKw, colRuntimeHours]

/-- Line 113: the map from IsolationForest labels to the anomaly column;
pandas Series.map sends any value outside the dict to NaN (none). -/
def mapAnomaly (v : Int) : Option Int :=
  if v = 1 then some 0 else if v = -1 then some 1 else none

/-- utils.py lines 101-114.  The IsolationForest fit_predict call is
library code, abstracted as the function fitPredict from row index to
label; its documented contract (labels are 1 or -1) is a hypothesis of the
claim theorem.  cols are the dataframe columns and n its row count. -/
def detect_anomalies (fitPredict : ℕ → Int) (cols : List String) (n : ℕ) :
    List (Option Int) :=
  if sensor_cols.all (fun c => cols.contains c) then
    (List.range n).map (fun i => mapAnomaly (fitPredict i))
  else (List.range n).map (fun _ => some 0)

/-! ### Structural lemmas about the pipeline -/

theorem addPrevEnd_map_fst (l : List MergedRow) (acc : String → Option Int) :
    (addPrevEnd l acc).map Prod.fst = l := by
  induction l generalizing acc with
  | nil => rfl
  | cons r rest ih => simp [addPrevEnd, ih]

theorem mem_addPrevEnd_fst {l : List MergedRow} {acc : String → Option Int}
    {rp : MergedRow × Option Int} (h : rp ∈ addPrevEnd l acc) : rp.1 ∈ l := by
  have h2 : rp.1 ∈ (addPrevEnd l acc).map Prod.fst :=
    List.mem_map_of_mem Prod.fst h
  rwa [addPrevEnd_map_fst] at h2

/-- Every row of the metric table comes from a merged row that passed the
repair-time positivity filter, and carries that row's repair time. -/
theorem metricCore_table_mem {merged : List MergedRow} {row : OutRow}
    (h : row ∈ (metricCore merged).1) :
    keepPositiveRepair ⟨row.event, row.master⟩ = true ∧
      row.repair = repairHours row.event := by
  simp only [metricCore, metricAux, List.mem_map] at h
  obtain ⟨rp, hrp, hrow⟩ := h
  have hfst : rp.1 ∈ List.insertionSort rowLe (merged.filter keepPositiveRepair) :=
    mem_addPrevEnd_fst hrp
  rw [List.mem_insertionSort] at hfst
  have hkeep := (List.mem_filter.mp hfst).2
  subst hrow
  exact ⟨hkeep, rfl⟩

/-- Unfolding the positivity filter of line 96. -/
theorem keepPositiveRepair_spec {r : MergedRow}
    (h : keepPositiveRepair r = true) :
    ∃ st en : Int, r.event.malfunctionStart = some st ∧
      r.event.malfunctionEnd = some en ∧
      repairHours r.event = some (((en - st : ℤ) : ℚ) / 3600) ∧
      0 < ((en - st : ℤ) : ℚ) / 3600 := by
  unfold keepPositiveRepair at h
  cases hre : repairHours r.event with
  | none => rw [hre] at h; cases h
  | some q =>
    rw [hre] at h
    have hq : 0 < q := of_decide_eq_true h
    have hre2 := hre
    unfold repairHours at hre2
    cases hst : r.event.malfunctionStart with
    | none => rw [hst] at hre2; cases hre2
    | some st =>
      cases hen : r.event.malfunctionEnd with
      | none => rw [hst, hen] at hre2; cases hre2
      | some en =>
        rw [hst, hen] at hre2
        have hqe : (((en - st : ℤ) : ℚ) / 3600) = q := by
          injection hre2
        exact ⟨st, en, rfl, rfl, congrArg some hqe.symm,
          by rw [hqe]; exact hq⟩

/-- The shape of a successful run of the upload pipeline. -/
theorem processUpload_ok {pd : String → Option Int} {f : RawFrame}
    {sd ed : Int} {master : List MasterRow} {tbl : List OutRow} {m : ℚ}
    (hok : processUpload pd f sd ed master = Except.ok (tbl, m)) :
    ∃ events, parseDates pd f = Except.ok events ∧
      (tbl, m) = metricCore (mergeMaster master (dateFilter sd ed events)) := by
  unfold processUpload at hok
  cases hp : parseDates pd f with
  | error e => rw [hp] at hok; cases hok
  | ok events =>
    rw [hp] at hok
    injection hok with hok
    exact ⟨events, rfl, hok.symm⟩

/-! ### Claim C1 -/

/-- Claim C1: for every event row retained in the output table, the repair
time (hrs) value equals the malfunction end timestamp minus the
malfunction start timestamp converted to hours (total seconds divided by
3600), and this value is strictly positive. -/
theorem c1_repair_time (pd : String → Option Int) (f : RawFrame)
    (sd ed : Int) (master : List MasterRow) (tbl : List OutRow) (m : ℚ)
    (hok : processUpload pd f sd ed master = Except.ok (tbl, m))
    (row : OutRow) (hrow : row ∈ tbl) :
    ∃ st en : Int, row.event.malfunctionStart = some st ∧
      row.event.malfunctionEnd = some en ∧
      row.repair = some (((en - st : ℤ) : ℚ) / 3600) ∧
      0 < ((en - st : ℤ) : ℚ) / 3600 := by
  obtain ⟨events, -, htbl⟩ := processUpload_ok hok
  have htbl1 : tbl =
      (metricCore (mergeMaster master (dateFilter sd ed events))).1 := by
    rw [← htbl]
  rw [htbl1] at hrow
  obtain ⟨hkeep, hrep⟩ := metricCore_table_mem hrow
  obtain ⟨st, en, hst, hen, hre, hpos⟩ := keepPositiveRepair_spec hkeep
  exact ⟨st, en, hst, hen, by rw [hrep]; exact hre, hpos⟩

/-! Concrete inputs used by the witnesses. -/

def machineId : String := "M1"

def dStr : String := "d1"

def tStr : String := "t1"

def eStr : String := "e1"

def uStr : String := "u1"

/-- One raw row: the four date cells hold the tokens above, any other
column (in particular equipment) holds the machine id. -/
def cellFun : String → String := fun c =>
  if c = colMalfunctStart then dStr
  else if c = colStartMalfnT then tStr
  else if c = colMalfunctDotEnd then eStr
  else if c = colMalfunctionEnd then uStr
  else machineId

/-- A concrete date parse function: the concatenated start cells parse to
day 5 at midnight, the end cells two hours later; everything else is
unparseable (coerced to none). -/
def pd0 : String → Option Int := fun s =>
  if s = dStr ++ " " ++ tStr then some 432000
  else if s = eStr ++ " " ++ uStr then some 439200
  else none

def raw0 : RawFrame := ⟨requiredDateColumns, [cellFun]⟩

def row1 : OutRow :=
  ⟨⟨machineId, some 432000, some 439200⟩, none, some 2, none, none, none⟩



def ev1 : EventRow := ⟨machineId, some 432000, some 439200⟩

def mr1 : MergedRow := ⟨ev1, none⟩

theorem eval_parse1 : parseDates pd0 raw0 = Except.ok [ev1] := by rfl

theorem eval_dateFilter1 : dateFilter 0 100 [ev1] = [ev1] := by rfl

theorem eval_merge1 : mergeMaster [] [ev1] = [mr1] := by rfl

theorem eval_keep1 : keepPositiveRepair mr1 = true := by
  unfold keepPositiveRepair repairHours mr1 ev1
  norm_num

theorem eval_metricCore1 : metricCore [mr1] = ([row1], 2) := by
  unfold metricCore
  rw [show [mr1].filter keepPositiveRepair = [mr1] by
    simp [List.filter_cons, eval_keep1]]
  unfold metricAux
  simp only [List.insertionSort, List.orderedInsert, addPrevEnd, List.map,
    Prod.mk.injEq]
  refine ⟨?_, ?_⟩
  · simp only [mkOut, row1, mr1, ev1, repairHours, uptimeHours, mtbfFor,
      gapsFor, meanOpt, List.filter, List.filterMap, machineId]
    norm_num [OutRow.mk.injEq]
  · simp only [mkOut, mr1, ev1, repairHours, List.filterMap, List.length]
    norm_num

theorem eval_process1 : processUpload pd0 raw0 0 100 [] = Except.ok ([row1], 2) := by
  unfold processUpload
  rw [eval_parse1]
  simp only []
  rw [eval_dateFilter1, eval_merge1, eval_metricCore1]

/-! ### Claim C3 -/

/-- Every row of the metric table carries a non-null repair time. -/
theorem table_repair_isSome {merged : List MergedRow} {row : OutRow}
    (hrow : row ∈ (metricCore merged).1) : row.repair.isSome = true := by
  obtain ⟨hkeep, hrep⟩ := metricCore_table_mem hrow
  obtain ⟨st, en, -, -, hre, -⟩ := keepPositiveRepair_spec hkeep
  rw [hrep, hre]
  rfl

theorem length_filterMap_of_isSome {α β : Type} (g : α → Option β)
    (l : List α) (h : ∀ a ∈ l, (g a).isSome = true) :
    (l.filterMap g).length = l.length := by
  induction l with
  | nil => rfl
  | cons a t ih =>
    rw [List.filterMap_cons]
    cases hg : g a with
    | none =>
      have hsome := h a (List.mem_cons_self a t)
      rw [hg] at hsome
      cases hsome
    | some b =>
      simp only [List.length_cons]
      rw [ih (fun x hx => h x (List.mem_cons_of_mem a hx))]

theorem addPrevEnd_length (l : List MergedRow) (acc : String → Option Int) :
    (addPrevEnd l acc).length = l.length := by
  have h := congrArg List.length (addPrevEnd_map_fst l acc)
  simpa using h

/-- The metric table has exactly one row per retained merged row. -/
theorem metricCore_length (merged : List MergedRow) :
    (metricCore merged).1.length = (merged.filter keepPositiveRepair).length := by
  unfold metricCore metricAux
  simp only [List.length_map, addPrevEnd_length]
  exact (List.perm_insertionSort rowLe _).length_eq

/-- The MTTR scalar of lines 110-112, read off the metric table. -/
theorem metricCore_snd (merged : List MergedRow) :
    (metricCore merged).2 =
      (if ((metricCore merged).1.filterMap OutRow.repair).length = 0 then 0
       else ((metricCore merged).1.filterMap OutRow.repair).sum /
         (((metricCore merged).1.filterMap OutRow.repair).length : ℚ)) := rfl

/-- Claim C3: the MTTR scalar equals the sum of the repair time (hrs)
column over retained events divided by the count of retained events, and
equals 0 when no events remain after filtering.  The first two conjuncts
identify the count used by the code (non-null repair times) with the
number of retained events. -/
theorem c3_mttr (merged : List MergedRow) :
    ((metricCore merged).1.filterMap OutRow.repair).length =
        (metricCore merged).1.length ∧
    (metricCore merged).1.length = (merged.filter keepPositiveRepair).length ∧
    ((metricCore merged).1 = [] → (metricCore merged).2 = 0) ∧
    ((metricCore merged).1 ≠ [] →
      (metricCore merged).2 =
        ((metricCore merged).1.filterMap OutRow.repair).sum /
          ((metricCore merged).1.length : ℚ)) := by
  have hcount : ((metricCore merged).1.filterMap OutRow.repair).length =
      (metricCore merged).1.length :=
    length_filterMap_of_isSome _ _ (fun row hrow => table_repair_isSome hrow)
  refine ⟨hcount, metricCore_length merged, ?_, ?_⟩
  · intro h
    rw [metricCore_snd, h]
    rfl
  · intro h
    rw [metricCore_snd, hcount,
      if_neg (fun h0 => h (List.length_eq_zero.mp h0))]

/-- Witness for C3: on the concrete single-event table the MTTR equals the
repair-time sum over the one retained event. -/
theorem c3_witness :
    (metricCore [mr1]).2 =
      ((metricCore [mr1]).1.filterMap OutRow.repair).sum /
        ((metricCore [mr1]).1.length : ℚ) :=
  (c3_mttr [mr1]).2.2.2 (by
    rw [show (metricCore [mr1]).1 = [row1] from
      congrArg Prod.fst eval_metricCore1]
    simp)

/-! ### Claim C5 -/

/-- Claim C5: events whose repair time is non-positive or not computable
are dropped before any metric computation (sorting, prev-end, MTBF, MTTR)
and the exclusion is silent: removing such an event from anywhere in the
merged table leaves the whole output (metric table and MTTR scalar)
unchanged, and no error is produced (metricCore is a total function whose
value does not depend on dropped events). -/
theorem c5_silent_drop (xs ys : List MergedRow) (bad : MergedRow)
    (h : keepPositiveRepair bad = false) :
    metricCore (xs ++ bad :: ys) = metricCore (xs ++ ys) := by
  unfold metricCore
  congr 1
  simp [List.filter_append, List.filter_cons, h]

/-- A merged row with an unparseable (null) malfunction end: its repair
time is NaN, so line 96 drops it. -/
def badRow : MergedRow := ⟨⟨machineId, some 100, none⟩, none⟩

/-- Witness for C5: dropping the concrete uncomputable-repair row changes
nothing. -/
theorem c5_witness : metricCore [badRow] = metricCore [] :=
  c5_silent_drop [] [] badRow rfl

/-! ### Claim C6 -/

/-- Claim C6: when an expected (date) column is missing from the uploaded
table, processing fails with the fatal user-visible error of lines 81-83
and halts: the pipeline returns an error and neither a metric table nor an
MTTR value is produced. -/
theorem c6_missing_column (pd : String → Option Int) (f : RawFrame)
    (sd ed : Int) (master : List MasterRow)
    (h : ∃ c ∈ requiredDateColumns, f.columns.contains c = false) :
    processUpload pd f sd ed master = Except.error missingColumnMsg := by
  obtain ⟨c, hc, hnc⟩ := h
  have hno : ¬(requiredDateColumns.all fun c => f.columns.contains c) = true := by
    intro hall
    rw [List.all_eq_true] at hall
    have hcontra := hall c hc
    rw [hnc] at hcontra
    cases hcontra
  unfold processUpload parseDates
  rw [if_neg hno]

/-- An upload containing only the equipment column: every date column of
lines 77-80 is missing. -/
def rawNoDates : RawFrame := ⟨[colEquipment], [cellFun]⟩

/-- Witness for C6: the upload without date columns halts with the error. -/
theorem c6_witness :
    processUpload pd0 rawNoDates 0 100 [] = Except.error missingColumnMsg :=
  c6_missing_column pd0 rawNoDates 0 100 []
    ⟨colMalfunctStart, List.mem_cons_self _ _, rfl⟩

/-! ### Claim C7 -/

/-- Claim C7: dates that fail to parse are coerced to null (the parse
function returns none, the model of errors equal to coerce), and a row
whose malfunction start is null satisfies neither the lower nor the upper
bound comparison of the date-range filter, hence is excluded from the
filter result; consequently every event reaching the metric stage (the
output of the date filter on the parsed events) has a non-null start. -/
theorem c7_null_start_excluded :
    (∀ sd ed : Int, ∀ e : EventRow, e.malfunctionStart = none →
      dateGeB e.malfunctionStart sd = false ∧
        dateLeB e.malfunctionStart ed = false ∧
        ∀ es : List EventRow, e ∉ dateFilter sd ed es) ∧
    (∀ pd f sd ed, ∀ events : List EventRow,
      parseDates pd f = Except.ok events →
      ∀ e ∈ dateFilter sd ed events, e.malfunctionStart.isSome = true) := by
  constructor
  · intro sd ed e he
    refine ⟨by rw [he]; rfl, by rw [he]; rfl, ?_⟩
    intro es hmem
    have hin := (List.mem_filter.mp hmem).2
    unfold inDateRange at hin
    rw [he] at hin
    cases hin
  · intro pd f sd ed events _ e hmem
    have hin := (List.mem_filter.mp hmem).2
    unfold inDateRange at hin
    cases hst : e.malfunctionStart with
    | some ts => rfl
    | none =>
      rw [hst] at hin
      cases hin

/-- An event whose dates both failed to parse. -/
def e0 : EventRow := ⟨machineId, none, none⟩

/-- Witness for C7: the concrete null-start event is excluded from a
concrete filter run, and the concrete parsed event that does reach the
metric stage has a non-null start. -/
theorem c7_witness :
    e0 ∉ dateFilter 0 100 [e0] ∧ ev1.malfunctionStart.isSome = true :=
  ⟨(c7_null_start_excluded.1 0 100 e0 rfl).2.2 [e0],
    c7_null_start_excluded.2 pd0 raw0 0 100 [ev1] eval_parse1 ev1
      (by rw [eval_dateFilter1]; exact List.mem_singleton.mpr rfl)⟩

/-- Witness for C1: the theorem applied to a concrete upload whose single
event starts at second 432000 and ends two hours later. -/
theorem c1_witness :
    ∃ st en : Int, row1.event.malfunctionStart = some st ∧
      row1.event.malfunctionEnd = some en ∧
      row1.repair = some (((en - st : ℤ) : ℚ) / 3600) ∧
      0 < ((en - st : ℤ) : ℚ) / 3600 :=
  c1_repair_time pd0 raw0 0 100 [] [row1] 2 eval_process1 row1
    (List.mem_singleton.mpr rfl)

/-! ### prev-end machinery for C2 and C4 -/

def accAfter : List MergedRow → (String → Option Int) → String → Option Int
  | [], acc => acc
  | r :: rest, acc =>
    accAfter rest
      (fun q => if q = r.event.equipment then r.event.malfunctionEnd
                else acc q)

theorem addPrevEnd_getElem (l : List MergedRow) (acc : String → Option Int)
    (i : ℕ) :
    (addPrevEnd l acc)[i]? =
      (l[i]?).map (fun r => (r, accAfter (l.take i) acc r.event.equipment)) := by
  induction l generalizing acc i with
  | nil => simp [addPrevEnd]
  | cons r rest ih =>
    cases i with
    | zero => simp [addPrevEnd, accAfter]
    | succ n =>
      simp only [addPrevEnd, List.getElem?_cons_succ, List.take_succ_cons, ih]
      rfl

theorem accAfter_eq_find (l : List MergedRow) (acc : String → Option Int)
    (q : String) :
    accAfter l acc q =
      match l.reverse.find? (fun r => decide (r.event.equipment = q)) with
      | some r => r.event.malfunctionEnd
      | none => acc q := by
  induction l generalizing acc with
  | nil => rfl
  | cons r rest ih =>
    show accAfter rest _ q = _
    rw [ih, List.reverse_cons, List.find?_append]
    cases hf : rest.reverse.find? (fun r => decide (r.event.equipment = q)) with
    | some x => rfl
    | none =>
      simp only [Option.none_or]
      by_cases hq : r.event.equipment = q
      · simp [List.find?, hq, if_pos hq.symm]
      · have hq2 : ¬ q = r.event.equipment := fun h => hq h.symm
        simp [List.find?, hq, if_neg hq2]

/-- The shifted list (line 99) that the table of metricCore is built from. -/
def shiftedRows (merged : List MergedRow) : List (MergedRow × Option Int) :=
  addPrevEnd (List.insertionSort rowLe (merged.filter keepPositiveRepair))
    (fun _ => none)

theorem metricCore_fst (merged : List MergedRow) :
    (metricCore merged).1 =
      (shiftedRows merged).map (mkOut (shiftedRows merged)) := rfl

/-- Each table row's prev end column is the malfunction end of the nearest
earlier row of the same equipment in table order (none when there is no
such row). -/
theorem map_mkOut_prevEnd (S : List MergedRow)
    (Wp : List (MergedRow × Option Int)) (i : ℕ) (row : OutRow)
    (h : ((addPrevEnd S (fun _ => none)).map (mkOut Wp))[i]? = some row) :
    row.prevEnd =
      match (((addPrevEnd S (fun _ => none)).map (mkOut Wp)).take i).reverse.find?
          (fun r => decide (r.event.equipment = row.event.equipment)) with
      | some r => r.event.malfunctionEnd
      | none => none := by
  rw [List.getElem?_map, addPrevEnd_getElem, Option.map_map] at h
  obtain ⟨r0, hr0, hrow⟩ := Option.map_eq_some'.mp h
  have heq : row.event.equipment = r0.event.equipment := by
    rw [← hrow]; rfl
  have hprev : row.prevEnd =
      accAfter (S.take i) (fun _ => none) r0.event.equipment := by
    rw [← hrow]; rfl
  rw [hprev, accAfter_eq_find, ← heq]
  have hfst : (addPrevEnd S (fun _ => none)).map Prod.fst = S :=
    addPrevEnd_map_fst S _
  have hS : S.take i =
      ((addPrevEnd S (fun _ => none)).take i).map Prod.fst := by
    rw [List.map_take, hfst]
  rw [hS, List.reverse_map, List.find?_map, ← List.map_take,
    List.reverse_map, List.find?_map]
  have hpred : ((fun r : OutRow => decide (r.event.equipment = row.event.equipment))
        ∘ mkOut Wp)
      = ((fun r : MergedRow => decide (r.event.equipment = row.event.equipment))
        ∘ Prod.fst) := rfl
  rw [hpred]
  cases hf : ((addPrevEnd S (fun _ => none)).take i).reverse.find?
      ((fun r : MergedRow => decide (r.event.equipment = row.event.equipment))
        ∘ Prod.fst) with
  | none => rfl
  | some rp => rfl

theorem gapsFor_eq_table (W Wp : List (MergedRow × Option Int)) (q : String) :
    ((W.map (mkOut Wp)).filter
      (fun r => r.event.equipment = q)).filterMap OutRow.uptime =
      gapsFor W q := by
  rw [List.filter_map, List.filterMap_map]
  rfl

/-- The mtbf column of each table row is the mean of the non-null uptime
values of the table rows of the same equipment. -/
theorem table_mtbf_mem (W : List (MergedRow × Option Int)) (row : OutRow)
    (hrow : row ∈ W.map (mkOut W)) :
    row.mtbf = meanOpt (((W.map (mkOut W)).filter
      (fun r => r.event.equipment = row.event.equipment)).filterMap
        OutRow.uptime) := by
  obtain ⟨rp, hrp, h⟩ := List.mem_map.mp hrow
  subst h
  rw [gapsFor_eq_table]
  rfl

theorem table_row_uptime (W : List (MergedRow × Option Int)) (row : OutRow)
    (hrow : row ∈ W.map (mkOut W)) :
    row.uptime = uptimeHours row.event row.prevEnd := by
  obtain ⟨rp, -, h⟩ := List.mem_map.mp hrow
  subst h
  rfl

theorem uptimeHours_none (e : EventRow) : uptimeHours e none = none := by
  unfold uptimeHours
  cases e.malfunctionStart <;> rfl

theorem shifted_prevEnd (merged : List MergedRow) (i : ℕ) (row : OutRow)
    (h : ((shiftedRows merged).map (mkOut (shiftedRows merged)))[i]? = some row) :
    row.prevEnd =
      match (((shiftedRows merged).map
          (mkOut (shiftedRows merged))).take i).reverse.find?
          (fun r => decide (r.event.equipment = row.event.equipment)) with
      | some r => r.event.malfunctionEnd
      | none => none :=
  map_mkOut_prevEnd _ _ i row h

/-- Claim C2: for every equipment id, the MTBF value joined back onto that
equipment's rows equals the mean of the per-event uptime gaps taken only
over events of that equipment with a valid (non-null) previous end, and an
equipment with exactly one retained event has null MTBF. -/
theorem c2_mtbf (merged : List MergedRow) (row : OutRow)
    (hrow : row ∈ (metricCore merged).1) :
    row.mtbf = meanOpt (((metricCore merged).1.filter
      (fun r => r.event.equipment = row.event.equipment)).filterMap
        OutRow.uptime) ∧
    (((metricCore merged).1.filter
        (fun r => r.event.equipment = row.event.equipment)).length = 1 →
      row.mtbf = none) := by
  rw [metricCore_fst] at hrow ⊢
  refine ⟨table_mtbf_mem _ row hrow, ?_⟩
  intro hcount
  have hprow : (fun r : OutRow =>
      decide (r.event.equipment = row.event.equipment)) row = true := by simp
  have hmemf : row ∈ ((shiftedRows merged).map
      (mkOut (shiftedRows merged))).filter
      (fun r => decide (r.event.equipment = row.event.equipment)) :=
    List.mem_filter.mpr (And.intro hrow hprow)
  obtain ⟨a, ha⟩ := List.length_eq_one.mp hcount
  rw [ha] at hmemf
  have hra : row = a := List.mem_singleton.mp hmemf
  subst hra
  obtain ⟨i, hi⟩ := List.mem_iff_getElem?.mp hrow
  have hchar := shifted_prevEnd merged i row hi
  rw [table_mtbf_mem _ row hrow, ha]
  have hprev : row.prevEnd = none := by
    cases hf : (((shiftedRows merged).map
        (mkOut (shiftedRows merged))).take i).reverse.find?
        (fun r => decide (r.event.equipment = row.event.equipment)) with
    | none => rw [hf] at hchar; exact hchar
    | some x =>
      exfalso
      have hx2 := List.find?_some hf
      have hx3 : x ∈ ((shiftedRows merged).map
          (mkOut (shiftedRows merged))).take i :=
        List.mem_reverse.mp (List.mem_of_find?_eq_some hf)
      have hx5 : x ∈ ((shiftedRows merged).map
          (mkOut (shiftedRows merged))).filter
          (fun r => decide (r.event.equipment = row.event.equipment)) :=
        List.mem_filter.mpr (And.intro (List.mem_of_mem_take hx3) hx2)
      rw [ha] at hx5
      have hxr : x = row := List.mem_singleton.mp hx5
      subst hxr
      have hlen1 : 0 < ((((shiftedRows merged).map
          (mkOut (shiftedRows merged))).take i).filter
          (fun r => decide (r.event.equipment = x.event.equipment))).length :=
        List.length_pos.mpr (List.ne_nil_of_mem
          (List.mem_filter.mpr (And.intro hx3 hx2)))
      have hdrop : (((shiftedRows merged).map
          (mkOut (shiftedRows merged))).drop i)[0]? = some x := by
        rw [List.getElem?_drop]
        simpa using hi
      have hmemd : x ∈ ((shiftedRows merged).map
          (mkOut (shiftedRows merged))).drop i :=
        List.mem_iff_getElem?.mpr ⟨0, hdrop⟩
      have hlen2 : 0 < ((((shiftedRows merged).map
          (mkOut (shiftedRows merged))).drop i).filter
          (fun r => decide (r.event.equipment = x.event.equipment))).length :=
        List.length_pos.mpr (List.ne_nil_of_mem
          (List.mem_filter.mpr (And.intro hmemd hx2)))
      have hlen : ((((shiftedRows merged).map
            (mkOut (shiftedRows merged))).take i).filter
            (fun r => decide (r.event.equipment = x.event.equipment))).length +
          ((((shiftedRows merged).map
            (mkOut (shiftedRows merged))).drop i).filter
            (fun r => decide (r.event.equipment = x.event.equipment))).length
          = 1 := by
        rw [← List.length_append, ← List.filter_append,
          List.take_append_drop, ha]
        rfl
      omega
  have hupt : row.uptime = none := by
    rw [table_row_uptime _ row hrow, hprev, uptimeHours_none]
  simp [List.filterMap_cons, hupt, meanOpt]

/-- Witness for C2: the concrete single-event table has null MTBF equal to
the mean over its empty gap list. -/
theorem c2_witness :
    row1.mtbf = meanOpt (((metricCore [mr1]).1.filter
      (fun r => r.event.equipment = row1.event.equipment)).filterMap
        OutRow.uptime) ∧
    (((metricCore [mr1]).1.filter
        (fun r => r.event.equipment = row1.event.equipment)).length = 1 →
      row1.mtbf = none) :=
  c2_mtbf [mr1] row1 (by
    rw [show (metricCore [mr1]).1 = [row1] from
      congrArg Prod.fst eval_metricCore1]
    exact List.mem_singleton.mpr rfl)

/-! ### Claim C4 -/

theorem timeLe_total (x y : Option Int) : timeLe x y ∨ timeLe y x := by
  cases x <;> cases y <;> simp [timeLe] <;> omega

theorem timeLe_trans (x y z : Option Int) (hxy : timeLe x y)
    (hyz : timeLe y z) : timeLe x z := by
  cases x <;> cases y <;> cases z <;> simp_all [timeLe] <;> omega

instance : IsTotal MergedRow rowLe where
  total a b := by
    unfold rowLe
    rcases lt_trichotomy a.event.equipment b.event.equipment with h | h | h
    · exact Or.inl (Or.inl h)
    · rcases timeLe_total a.event.malfunctionStart b.event.malfunctionStart
        with ht | ht
      · exact Or.inl (Or.inr ⟨h, ht⟩)
      · exact Or.inr (Or.inr ⟨h.symm, ht⟩)
    · exact Or.inr (Or.inl h)

instance : IsTrans MergedRow rowLe where
  trans a b c hab hbc := by
    unfold rowLe at *
    rcases hab with h1 | ⟨e1, t1⟩
    · rcases hbc with h2 | ⟨e2, t2⟩
      · exact Or.inl (h1.trans h2)
      · exact Or.inl (lt_of_lt_of_eq h1 e2)
    · rcases hbc with h2 | ⟨e2, t2⟩
      · exact Or.inl (lt_of_eq_of_lt e1 h2)
      · exact Or.inr ⟨e1.trans e2, timeLe_trans _ _ _ t1 t2⟩

/-- The sort order of line 98, seen on output rows. -/
def outLe (a b : OutRow) : Prop :=
  a.event.equipment < b.event.equipment ∨
    (a.event.equipment = b.event.equipment ∧
      timeLe a.event.malfunctionStart b.event.malfunctionStart)

/-- The metric table is sorted by (equipment, malfunction start). -/
theorem metricCore_sorted (merged : List MergedRow) :
    List.Pairwise outLe (metricCore merged).1 := by
  rw [metricCore_fst]
  have hs : List.Pairwise rowLe
      (List.insertionSort rowLe (merged.filter keepPositiveRepair)) :=
    List.sorted_insertionSort rowLe _
  have hw : List.Pairwise (fun a b : MergedRow × Option Int => rowLe a.1 b.1)
      (shiftedRows merged) := by
    rw [← List.pairwise_map]
    rw [show (shiftedRows merged).map Prod.fst =
      List.insertionSort rowLe (merged.filter keepPositiveRepair) from
      addPrevEnd_map_fst _ _]
    exact hs
  exact List.Pairwise.map _ (fun a b h => h) hw

def eqA : String := "A"

/-- First example event of the spec: equipment A, ending at T0 after a
two-hour repair. -/
def exEvA1 (t0 : ℤ) : MergedRow := ⟨⟨eqA, some (t0 - 7200), some t0⟩, none⟩

/-- Second example event of the spec: equipment A, starting five hours
after T0. -/
def exEvA2 (t0 : ℤ) : MergedRow :=
  ⟨⟨eqA, some (t0 + 18000), some (t0 + 21600)⟩, none⟩

theorem example_uptime (t0 : ℤ) :
    ((metricCore [exEvA1 t0, exEvA2 t0]).1).map OutRow.uptime
      = [none, some 5] := by
  have hk1 : keepPositiveRepair (exEvA1 t0) = true := by
    unfold keepPositiveRepair repairHours exEvA1
    simp only []
    rw [show t0 - (t0 - 7200) = (7200 : ℤ) from by ring]
    norm_num
  have hk2 : keepPositiveRepair (exEvA2 t0) = true := by
    unfold keepPositiveRepair repairHours exEvA2
    simp only []
    rw [show t0 + 21600 - (t0 + 18000) = (3600 : ℤ) from by ring]
    norm_num
  have hfil : [exEvA1 t0, exEvA2 t0].filter keepPositiveRepair
      = [exEvA1 t0, exEvA2 t0] := by
    simp [List.filter_cons, hk1, hk2]
  have hle : rowLe (exEvA1 t0) (exEvA2 t0) := by
    refine Or.inr ⟨rfl, ?_⟩
    show t0 - 7200 ≤ t0 + 18000
    omega
  have hsort : List.insertionSort rowLe [exEvA1 t0, exEvA2 t0]
      = [exEvA1 t0, exEvA2 t0] := by
    show List.orderedInsert rowLe (exEvA1 t0)
      (List.orderedInsert rowLe (exEvA2 t0) []) = _
    rw [List.orderedInsert_nil, List.orderedInsert, if_pos hle]
  have hprev : addPrevEnd [exEvA1 t0, exEvA2 t0] (fun _ => none)
      = [(exEvA1 t0, none), (exEvA2 t0, some t0)] := by
    simp [addPrevEnd, exEvA1, exEvA2]
  rw [metricCore_fst]
  unfold shiftedRows
  rw [hfil, hsort, hprev]
  simp only [List.map, mkOut, uptimeHours, exEvA1, exEvA2]
  rw [show t0 + 18000 - t0 = (18000 : ℤ) from by ring]
  norm_num

/-- Claim C4: before computing the prev end column the events are sorted
by (equipment, malfunction start); each row's prev end is the malfunction
end of the nearest earlier same-equipment row in that order, so the uptime
gap is relative to the immediately preceding event of the equipment; in
particular, for equipment A with an event ending at T0 and the next event
starting at T0 plus five hours, the uptime since last failure of that next
event is 5.0 hours. -/
theorem c4_sort_prev :
    (∀ merged : List MergedRow,
      List.Pairwise outLe (metricCore merged).1) ∧
    (∀ merged : List MergedRow, ∀ i : ℕ, ∀ row : OutRow,
      ((metricCore merged).1)[i]? = some row →
      row.prevEnd =
        match ((metricCore merged).1.take i).reverse.find?
            (fun r => decide (r.event.equipment = row.event.equipment)) with
        | some r => r.event.malfunctionEnd
        | none => none) ∧
    (∀ t0 : ℤ, ((metricCore [exEvA1 t0, exEvA2 t0]).1).map OutRow.uptime
      = [none, some 5]) :=
  ⟨metricCore_sorted,
    fun merged i row h => by
      rw [metricCore_fst] at h ⊢
      exact shifted_prevEnd merged i row h,
    example_uptime⟩

/-- Witness for C4: the prev-end characterization applied at row 0 of the
concrete single-event table. -/
theorem c4_witness :
    row1.prevEnd =
      match ((metricCore [mr1]).1.take 0).reverse.find?
          (fun r => decide (r.event.equipment = row1.event.equipment)) with
      | some r => r.event.malfunctionEnd
      | none => none :=
  c4_sort_prev.2.1 [mr1] 0 row1 (by
    rw [show (metricCore [mr1]).1 = [row1] from
      congrArg Prod.fst eval_metricCore1]
    rfl)

/-! ### Claim C10 -/

/-- Claim C10: the anomaly column of detect_anomalies contains only 0 and
1 (under the IsolationForest contract that fit_predict labels are 1 or
-1), and when any of the six required sensor columns is absent every
row's anomaly value is 0. -/
theorem c10_anomaly (fitPredict : ℕ → Int) (cols : List String) (n : ℕ)
    (h : ∀ i, fitPredict i = 1 ∨ fitPredict i = -1) :
    (∀ a ∈ detect_anomalies fitPredict cols n, a = some 0 ∨ a = some 1) ∧
    ((∃ c ∈ sensor_cols, cols.contains c = false) →
      ∀ a ∈ detect_anomalies fitPredict cols n, a = some 0) := by
  constructor
  · intro a ha
    unfold detect_anomalies at ha
    by_cases hall : sensor_cols.all (fun c => cols.contains c) = true
    · rw [if_pos hall] at ha
      obtain ⟨i, -, hi⟩ := List.mem_map.mp ha
      rcases h i with h1 | h1
      · left
        rw [← hi]
        unfold mapAnomaly
        rw [h1]
        rfl
      · right
        rw [← hi]
        unfold mapAnomaly
        rw [h1]
        rfl
    · rw [if_neg hall] at ha
      obtain ⟨i, -, hi⟩ := List.mem_map.mp ha
      exact Or.inl hi.symm
  · intro hmiss a ha
    unfold detect_anomalies at ha
    have hall : ¬ sensor_cols.all (fun c => cols.contains c) = true := by
      intro hall
      obtain ⟨c, hc, hnc⟩ := hmiss
      rw [List.all_eq_true] at hall
      have hcol := hall c hc
      rw [hnc] at hcol
      cases hcol
    rw [if_neg hall] at ha
    obtain ⟨i, -, hi⟩ := List.mem_map.mp ha
    exact hi.symm

/-- Witness for C10: a concrete run whose single label -1 maps to 1. -/
theorem c10_witness :
    (some 1 : Option Int) = some 0 ∨ (some 1 : Option Int) = some 1 :=
  (c10_anomaly (fun _ => -1) sensor_cols 1 (fun _ => Or.inr rfl)).1 (some 1)
    (by
      rw [show detect_anomalies (fun _ => -1) sensor_cols 1 = [some 1]
        from rfl]
      exact List.mem_singleton.mpr rfl)

/-! ### Claim C8 -/

/-- A machine dataframe with both columns present but a single null
vibration cell. -/
def vibFrameNaN : VibFrame := ⟨true, true, [⟨0, none⟩]⟩

/-- Counterexample for C8 as stated: on a frame whose only vibration cell
is null, the returned failure probability is null (pandas NaN), which does
not lie in the interval [0, 1]. -/
theorem c8_counterexample :
    estimate_failure_probability vibFrameNaN =
      Except.ok [((0 : Int), (none : Option ℚ))] ∧
    ¬ (∀ p ∈ [((0 : Int), (none : Option ℚ))],
        ∃ q : ℚ, p.2 = some q ∧ 0 ≤ q ∧ q ≤ 1) := by
  constructor
  · rfl
  · intro hall
    obtain ⟨q, hq, -⟩ := hall (0, none) (List.mem_singleton.mpr rfl)
    cases hq

/-- Claim C8, amended: every returned failure probability is null or lies
in [0, 1], and when the vibration or timestamp column is missing every
returned value is exactly 0.0 (values are only returned at all in that
case when the timestamp column is present; a missing timestamp column
makes the final column selection fail). -/
theorem c8_amended_fp (f : VibFrame) (out : List (Int × Option ℚ))
    (hok : estimate_failure_probability f = Except.ok out) :
    (∀ p ∈ out, p.2 = none ∨ ∃ q : ℚ, p.2 = some q ∧ 0 ≤ q ∧ q ≤ 1) ∧
    ((f.hasVibration = false ∨ f.hasTimestamp = false) →
      ∀ p ∈ out, p.2 = some 0) := by
  unfold estimate_failure_probability at hok
  by_cases hguard : (f.hasVibration = false || f.hasTimestamp = false) = true
  · rw [if_pos hguard] at hok
    by_cases hts : f.hasTimestamp = true
    · rw [if_pos hts] at hok
      injection hok with hok
      subst hok
      constructor
      · intro p hp
        obtain ⟨r, -, hr⟩ := List.mem_map.mp hp
        exact Or.inr ⟨0, by rw [← hr], le_refl 0, by norm_num⟩
      · intro hmiss p hp
        obtain ⟨r, -, hr⟩ := List.mem_map.mp hp
        rw [← hr]
    · rw [if_neg hts] at hok
      cases hok
  · rw [if_neg hguard] at hok
    injection hok with hok
    subst hok
    constructor
    · intro p hp
      obtain ⟨a, b⟩ := p
      have hb := (List.of_mem_zip hp).2
      unfold fpColumn at hb
      obtain ⟨i, -, hib⟩ := List.mem_map.mp hb
      cases hm : rollingMeanAt (f.rows.map VibRow.vibration) i with
      | none =>
        left
        rw [← hib, hm]
        rfl
      | some m =>
        right
        refine ⟨clip01 (m / 10), by rw [← hib, hm]; rfl, ?_, ?_⟩
        · exact le_max_left 0 _
        · exact max_le (by norm_num) (min_le_right _ _)
    · intro hmiss p hp
      exfalso
      rcases hmiss with hv | ht
      · exact hguard (by rw [hv]; rfl)
      · exact hguard (by rw [ht]; simp)

/-- Witness for the amended C8: a run returning a null value, which the
amended claim allows. -/
theorem c8_witness :
    ((0 : Int), (none : Option ℚ)).2 = none ∨
      ∃ q : ℚ, ((0 : Int), (none : Option ℚ)).2 = some q ∧ 0 ≤ q ∧ q ≤ 1 :=
  (c8_amended_fp vibFrameNaN [((0 : Int), (none : Option ℚ))] rfl).1
    (0, none) (List.mem_singleton.mpr rfl)

/-! ### Claim C9 -/

theorem etaCore_getElem (failures : List ℕ) (k : ℕ) (rows : List EtaRow)
    (i : ℕ) :
    (etaCore failures k rows)[i]? =
      (rows[i]?).map (etaRowAt failures (k + i)) := by
  induction rows generalizing k i with
  | nil => simp [etaCore]
  | cons r rest ih =>
    cases i with
    | zero => simp [etaCore]
    | succ n =>
      simp only [etaCore, List.getElem?_cons_succ, ih]
      rw [show k + 1 + n = k + (n + 1) from by omega]

theorem failureIndices_sorted (rows : List EtaRow) :
    List.Pairwise (fun a b => a < b) (failureIndices rows) :=
  (List.pairwise_lt_range rows.length).filter _

theorem mem_failureIndices (rows : List EtaRow) (j : ℕ) :
    j ∈ failureIndices rows ↔
      j < rows.length ∧ (rows[j]?).map EtaRow.failure = some 1 := by
  unfold failureIndices
  rw [List.mem_filter, List.mem_range]
  simp

/-- Claim C9: with the failure and timestamp columns present, row i of the
result of estimate_eta keeps its input row; its estimated hours column is
null exactly when no strictly later row has failure equal to 1; it is set
whenever some strictly later row has failure equal to 1; and a set value e
is positive, points at the nearest later failure row (row i + e has
failure 1 and no strictly intermediate row does), with the predicted
failure time equal to row i's timestamp plus e hours. -/
theorem c9_eta (f : EtaFrame) (h1 : f.hasFailure = true)
    (h2 : f.hasTimestamp = true) (i : ℕ) (r : EtaRow)
    (hr : f.rows[i]? = some r) :
    ((estimate_eta f)[i]?.map (fun t => t.1) = some r) ∧
    (((estimate_eta f)[i]?.map (fun t => t.2.1) = some none) ↔
      ∀ j rj, i < j → f.rows[j]? = some rj → rj.failure ≠ 1) ∧
    ((∃ j rj, i < j ∧ f.rows[j]? = some rj ∧ rj.failure = 1) →
      ∃ e : ℕ, (estimate_eta f)[i]?.map (fun t => t.2.1) = some (some e)) ∧
    (∀ e : ℕ, (estimate_eta f)[i]?.map (fun t => t.2.1) = some (some e) →
      0 < e ∧
      (∃ re, f.rows[i + e]? = some re ∧ re.failure = 1) ∧
      (∀ k rk, i < k → k < i + e → f.rows[k]? = some rk →
        rk.failure ≠ 1) ∧
      (estimate_eta f)[i]?.map (fun t => t.2.2) =
        some (some (r.timestamp + 3600 * (e : Int)))) := by
  have hcond : (f.hasFailure && f.hasTimestamp) = true := by
    rw [h1, h2]
    rfl
  unfold estimate_eta
  rw [if_pos hcond, etaCore_getElem, Nat.zero_add, hr]
  unfold etaRowAt
  cases hhead : ((failureIndices f.rows).filter
      (fun j => decide (i < j))).head? with
  | none =>
    have hnil : (failureIndices f.rows).filter (fun j => decide (i < j)) = [] :=
      List.head?_eq_none_iff.mp hhead
    have hnolater : ∀ j rj, i < j → f.rows[j]? = some rj →
        rj.failure ≠ 1 := by
      intro j rj hij hj hfail
      have hjmem : j ∈ failureIndices f.rows := by
        rw [mem_failureIndices]
        refine ⟨?_, by rw [hj]; simp [hfail]⟩
        exact (List.getElem?_eq_some_iff.mp hj).1
      have hjf : j ∈ (failureIndices f.rows).filter
          (fun j => decide (i < j)) :=
        List.mem_filter.mpr ⟨hjmem, by simpa using hij⟩
      rw [hnil] at hjf
      cases hjf
    refine ⟨rfl, ⟨fun _ => hnolater, fun _ => rfl⟩, ?_, ?_⟩
    · intro ⟨j, rj, hij, hj, hfail⟩
      exact absurd hfail (hnolater j rj hij hj)
    · intro e he
      have he2 : (some (none : Option ℕ) : Option (Option ℕ))
          = some (some e) := he
      injection he2 with he3
      cases he3
  | some j =>
    obtain ⟨tail, htail⟩ := List.head?_eq_some_iff.mp hhead
    have hjmem2 : j ∈ (failureIndices f.rows).filter
        (fun j => decide (i < j)) := by
      rw [htail]
      exact List.mem_cons_self _ _
    have hij : i < j := by
      have hjp := (List.mem_filter.mp hjmem2).2
      simpa using hjp
    have hjfail : j ∈ failureIndices f.rows := (List.mem_filter.mp hjmem2).1
    obtain ⟨hjlt, hjmap⟩ := (mem_failureIndices f.rows j).mp hjfail
    obtain ⟨rj, hrj, hrjfail⟩ := Option.map_eq_some'.mp hjmap
    have hmin : ∀ k, k ∈ failureIndices f.rows → i < k → j ≤ k := by
      intro k hk hik
      have hkf : k ∈ (failureIndices f.rows).filter
          (fun j => decide (i < j)) :=
        List.mem_filter.mpr ⟨hk, by simpa using hik⟩
      rw [htail] at hkf
      rcases List.mem_cons.mp hkf with hkj | hkt
      · exact le_of_eq hkj.symm
      · have hsorted : List.Pairwise (fun a b => a < b)
            ((failureIndices f.rows).filter (fun j => decide (i < j))) :=
          (failureIndices_sorted f.rows).filter _
        rw [htail] at hsorted
        exact le_of_lt ((List.pairwise_cons.mp hsorted).1 k hkt)
    refine ⟨rfl, ?_, ?_, ?_⟩
    · constructor
      · intro habs
        have habs2 : (some (some (j - i)) : Option (Option ℕ))
            = some none := habs
        injection habs2 with habs3
        cases habs3
      · intro hall
        exact absurd hrjfail (hall j rj hij hrj)
    · intro _
      exact ⟨j - i, rfl⟩
    · intro e he
      have he2 : (some (some (j - i)) : Option (Option ℕ))
          = some (some e) := he
      injection he2 with he3
      injection he3 with he4
      have hei : e = j - i := he4.symm
      subst hei
      refine ⟨by omega, ?_, ?_, ?_⟩
      · have hji : i + (j - i) = j := by omega
        rw [hji]
        exact ⟨rj, hrj, hrjfail⟩
      · intro k rk hik hki hk hkfail
        have hkmem : k ∈ failureIndices f.rows := by
          rw [mem_failureIndices]
          refine ⟨(List.getElem?_eq_some_iff.mp hk).1, by rw [hk]; simp [hkfail]⟩
        have hjk := hmin k hkmem hik
        omega
      · rfl

def etaFrame0 : EtaFrame := ⟨true, true, [⟨0, 1000⟩, ⟨1, 5000⟩]⟩

/-- Witness for C9: on a concrete two-row frame whose second row is a
failure, row 0 keeps its input row. -/
theorem c9_witness :
    (estimate_eta etaFrame0)[0]?.map (fun t => t.1) =
      some (⟨0, 1000⟩ : EtaRow) :=
  (c9_eta etaFrame0 rfl rfl 0 ⟨0, 1000⟩ rfl).1

end PreDict
